import Mathlib

/-!
# Verification of the `kisaan_fast_api` service (`src/main.py`)

A shallow embedding of the pure content of `main.py`:

* Python `float` arithmetic is idealised as `ℝ` for the trigonometric
  Haversine helper; the request handlers are stated generically over a
  `LinearOrderedField` so that concrete instances can be evaluated over `ℚ`.
* A Firestore user document is a record of the fields the handlers read
  (`type`, `description`, `focus_area`, `location`); a generic document
  (used by the serializer and the product endpoints) is an `id` together
  with an association list of field values.
* The external key-derivation function `hashlib.pbkdf2_hmac` is an
  uninterpreted parameter `kdf`; `os.urandom(16)` is modelled by passing
  the salt explicitly.
* Query-parameter extraction (`request.query_params`) is modelled by
  handing each handler the already-extracted optional parameters, and the
  JSON response layer by returning the payload (or an `HTTPError`)
  directly.  Handler-level control flow (the `try`/`except` blocks, the
  missing `return` in `find_users`, the early `400`) is modelled exactly.
-/

namespace Kisaan

/-- Python truthiness of an optional string parameter (`if s:`):
`None` and the empty string are falsy. -/
def strTruthy : Option String → Bool
  | none => false
  | some s => !s.isEmpty

/-- Python `s.lower()`: lowercase each character. -/
def pyLower (s : String) : String := ⟨s.data.map Char.toLower⟩

/-- Python `needle in hay` on strings: substring containment
(contiguous-sublist containment on the character lists). -/
def strIn (needle hay : String) : Bool :=
  decide (needle.data <:+: hay.data)

/-- An HTTP exception as raised by the handlers: status code and detail. -/
structure HTTPError where
  status_code : Nat
  detail : String
deriving DecidableEq, Repr

/-! ## The Haversine helper (`haversine`, `main.py` lines 44–50) -/

/-- `math.radians`: degrees to radians. -/
noncomputable def radians (x : ℝ) : ℝ := x * (Real.pi / 180)

/-- `math.atan2 y x` (Python argument order), on real numbers. -/
noncomputable def atan2 (y x : ℝ) : ℝ :=
  if 0 < x then Real.arctan (y / x)
  else if x < 0 then
    (if 0 ≤ y then Real.arctan (y / x) + Real.pi else Real.arctan (y / x) - Real.pi)
  else if 0 < y then Real.pi / 2
  else if y < 0 then -(Real.pi / 2)
  else 0

/-- `haversine(lat1, lon1, lat2, lon2)`: great-circle distance in km,
Earth radius 6371, exactly as written in the source. -/
noncomputable def haversine (lat1 lon1 lat2 lon2 : ℝ) : ℝ :=
  let R : ℝ := 6371
  let dlat := radians (lat2 - lat1)
  let dlon := radians (lon2 - lon1)
  let a := Real.sin (dlat / 2) ^ 2 +
    Real.cos (radians lat1) * Real.cos (radians lat2) * Real.sin (dlon / 2) ^ 2
  let c := 2 * atan2 (Real.sqrt a) (Real.sqrt (1 - a))
  R * c

/-! ## User documents and the two search handlers -/

/-- The fields of a stored user document that the search handlers read.
`location` is `none` when the field is absent or `None`; coordinates are
a `(latitude, longitude)` pair over the numeric type `α`. -/
structure UserDoc (α : Type) where
  type : String
  description : Option String
  focus_area : Option String
  location : Option (α × α)
deriving DecidableEq, Repr

section Handlers

variable {α : Type} [LinearOrderedField α]

/-- The distance-filtering step of the `find_users` loop (`main.py` lines
187–199): it runs only when `lat`, `lng` and `radius` are all supplied
(`if lat is not None and lng is not None and radius is not None:`); then a
document without a location is dropped (`if not user_location: continue`),
one farther than `radius` is dropped (`if distance > radius: continue`),
and a surviving one is annotated with its distance.  When any of the
three parameters is missing the document passes through unannotated. -/
def distanceStep (dist : α → α → α → α → α) (lat lng radius : Option α)
    (user : UserDoc α) : Option (UserDoc α × Option α) :=
  match lat, lng, radius with
  | some la, some ln, some r =>
    match user.location with
    | none => none
    | some loc =>
      let d := dist la ln loc.1 loc.2
      if d > r then none
      else some (user, some d)
  | _, _, _ => some (user, none)

/-- The filtering loop of `find_users` (`main.py` lines 165–201): the
Firestore `type` equality filter, then per-document keyword filters on
`description` and `focus_area`, then the distance step.  A surviving
document is paired with `some` distance when the distance filter ran,
`none` otherwise (the `user_data['distance']` annotation). -/
def find_users_filtered (dist : α → α → α → α → α)
    (user_type description_keyword focus_area_keyword : Option String)
    (lat lng radius : Option α) (users : List (UserDoc α)) :
    List (UserDoc α × Option α) :=
  -- `if user_type: query = query.where('type', '==', user_type)`
  let queried := if strTruthy user_type then
      users.filter (fun u => u.type == user_type.getD "") else users
  queried.filterMap (fun user =>
    -- `if description_keyword and description_keyword.lower() not in
    --     user_data.get('description', '').lower(): continue`
    if strTruthy description_keyword &&
        !(strIn (pyLower (description_keyword.getD ""))
          (pyLower (user.description.getD ""))) then none
    -- `if focus_area_keyword and ... not in user_data.get('focus_area', '').lower()`
    else if strTruthy focus_area_keyword &&
        !(strIn (pyLower (focus_area_keyword.getD ""))
          (pyLower (user.focus_area.getD ""))) then none
    else distanceStep dist lat lng radius user)

/-- The `find_users` handler (`main.py` lines 154–203).  The body builds
`filtered_users` and constructs a `JSONResponse` from it, but the function
has no `return` statement, so its value is Python's `None`, modelled as
`none`. -/
def find_users (dist : α → α → α → α → α)
    (user_type description_keyword focus_area_keyword : Option String)
    (lat lng radius : Option α) (users : List (UserDoc α)) :
    Option (List (UserDoc α × Option α)) :=
  let filtered_users :=
    find_users_filtered dist user_type description_keyword focus_area_keyword
      lat lng radius users
  -- `JSONResponse(content=jsonable_encoder(filtered_users), ...)` is built …
  let _response := filtered_users
  -- … but never returned: the handler falls off the end.
  none

/-- The filtering loop of `find_users_by_location` (`main.py` lines
217–233): the Firestore query keeps documents whose `location` is not
`None`; each surviving document within `radius` is paired with its
computed distance. -/
def nearby_users (dist : α → α → α → α → α) (lat lng radius : α)
    (users : List (UserDoc α)) : List (UserDoc α × α) :=
  -- `db.collection('users').where('location', '!=', None).stream()`
  let users_ref := users.filter (fun u => u.location.isSome)
  users_ref.filterMap (fun user =>
    match user.location with
    | none => none                -- `if not user_location: continue`
    | some loc =>
      let d := dist lat lng loc.1 loc.2
      if d ≤ radius then some (user, d) else none)

/-- The comparison the final `nearby_users.sort(key=lambda x: x['distance'])`
sorts by: ascending distance. -/
def byDistance (x y : UserDoc α × α) : Bool := decide (x.2 ≤ y.2)

/-- The `find_users_by_location` handler (`main.py` lines 206–238):
`radius` defaults to 10; a missing `lat` or `lng` raises
`HTTPException(400, "No products found at the given location")`;
otherwise the nearby list is built and stably sorted by distance. -/
def find_users_by_location (dist : α → α → α → α → α)
    (lat lng radius : Option α) (users : List (UserDoc α)) :
    Except HTTPError (List (UserDoc α × α)) :=
  let radius := radius.getD 10    -- `default=10`
  match lat, lng with
  | some la, some ln =>
    .ok ((nearby_users dist la ln radius users).mergeSort byDistance)
  | _, _ =>
    .error ⟨400, "No products found at the given location"⟩

end Handlers

/-! ## The password helper (`main.py` lines 32–41)

`hashlib.pbkdf2_hmac('sha256', password, salt, 100000)` is an external
library routine; it enters the model as an uninterpreted deterministic
function `kdf : password bytes → salt bytes → iteration count → derived
key bytes`.  `os.urandom(16)` is modelled by passing the salt explicitly. -/

/-- `hash_password`: derive the key from the password and a 16-byte salt
with 100000 iterations, and return `salt + hashed_password`. -/
def hash_password (kdf : List Nat → List Nat → Nat → List Nat)
    (password salt : List Nat) : List Nat :=
  let hashed_password := kdf password salt 100000
  salt ++ hashed_password

/-- `verify_password`: split the stored bytes at offset 16 into salt and
expected hash, recompute the derived key with the same parameters, and
compare for equality. -/
def verify_password (kdf : List Nat → List Nat → Nat → List Nat)
    (password stored_password : List Nat) : Bool :=
  let salt := stored_password.take 16
  let stored_hash := stored_password.drop 16
  let hashed_password := kdf password salt 100000
  hashed_password == stored_hash

/-! ## Generic documents and the serializer (`main.py` lines 21–30) -/

/-- A Firestore field value as the serializer sees it: a scalar, a
`firestore.GeoPoint`, or a plain `{latitude, longitude}` mapping (the
shape the serializer produces for geo points). -/
inductive FireValue (α : Type) where
  | str (s : String)
  | num (x : α)
  | boolean (b : Bool)
  | geo (latitude longitude : α)
  | latlng (latitude longitude : α)
deriving DecidableEq, Repr

/-- A stored document: its store-assigned id and its field mapping
(`doc.to_dict()`), an insertion-ordered association list. -/
structure FireDoc (α : Type) where
  id : String
  fields : List (String × FireValue α)
deriving DecidableEq, Repr

variable {α : Type}

/-- `data[k] = v` on an insertion-ordered dict: overwrite the entries that
already carry the key, else append the binding at the end. -/
def setField (data : List (String × FireValue α)) (k : String)
    (v : FireValue α) : List (String × FireValue α) :=
  if data.any (fun p => p.1 == k) then
    data.map (fun p => if p.1 == k then (k, v) else p)
  else data ++ [(k, v)]

/-- The body of the serializer's loop: a `firestore.GeoPoint` value is
replaced by the `{latitude, longitude}` mapping, anything else is left
as it is. -/
def flattenValue : FireValue α → FireValue α
  | .geo la ln => .latlng la ln
  | v => v

/-- `serialize_firestore_document`: take the document's field dict, set
`data['id'] = doc.id`, then replace every `GeoPoint` value in place. -/
def serialize_firestore_document (doc : FireDoc α) :
    List (String × FireValue α) :=
  let data := setField doc.fields "id" (.str doc.id)
  data.map (fun p => (p.1, flattenValue p.2))

/-! ## `GET /products/{product_id}` (`main.py` lines 82–91)

The whole body runs inside `try: ... except Exception as e: raise
HTTPException(status_code=500, detail=str(e))`.  `HTTPException` is itself
an `Exception`, so the `except` clause also catches the 404 raised for a
missing document.  `str(e)` — the text the framework renders for the
caught exception — is the uninterpreted parameter `strOfExc`. -/

/-- The `get_product_by_id` handler: look the document up; if it exists,
return `{"product": serialized}`; otherwise raise a 404 — which the
enclosing `except Exception` converts into a 500. -/
def get_product_by_id (strOfExc : HTTPError → String)
    (products : List (FireDoc α)) (product_id : String) :
    Except HTTPError (List (String × FireValue α)) :=
  -- the `try` block
  let body : Except HTTPError (List (String × FireValue α)) :=
    match products.find? (fun d => d.id == product_id) with
    | some doc => .ok (serialize_firestore_document doc)   -- `doc.exists`
    | none => .error ⟨404, "Product not found"⟩
  -- `except Exception as e: raise HTTPException(500, str(e))`
  match body with
  | .ok r => .ok r
  | .error e => .error ⟨500, strOfExc e⟩

/-! ## Helper lemmas -/

/-- Looking a key up after mapping a function over the values commutes. -/
theorem lookup_map_value (f : FireValue α → FireValue α)
    (l : List (String × FireValue α)) (k : String) :
    (l.map (fun p => (p.1, f p.2))).lookup k = (l.lookup k).map f := by
  induction l with
  | nil => rfl
  | cons p t ih =>
    rcases p with ⟨k', v⟩
    by_cases h : k = k'
    · subst h; simp [List.lookup]
    · simp [List.lookup, beq_eq_false_iff_ne.mpr h, ih]

/-- Overwriting every entry keyed `k` makes `k` look up to the new value
exactly when some entry carries `k`. -/
theorem lookup_map_overwrite (l : List (String × FireValue α))
    (k : String) (v : FireValue α) :
    (l.map (fun p => if p.1 == k then (k, v) else p)).lookup k =
      if l.any (fun p => p.1 == k) then some v else none := by
  induction l with
  | nil => rfl
  | cons p t ih =>
    rcases p with ⟨k₀, w⟩
    rw [List.map_cons, List.any_cons]
    by_cases h0 : k₀ = k
    · subst h0
      rw [if_pos (by simp)]
      rw [List.lookup_cons]
      simp
    · have hb : ((k₀, w).1 == k) = false := beq_eq_false_iff_ne.mpr h0
      have hb' : (k == k₀) = false := beq_eq_false_iff_ne.mpr (Ne.symm h0)
      rw [if_neg (by simp [hb])]
      rw [List.lookup_cons]
      simp only [hb, hb', Bool.false_or]
      exact ih

/-- Overwriting the entries keyed `k` leaves every other key's lookup
unchanged. -/
theorem lookup_map_overwrite_ne (l : List (String × FireValue α))
    (k k' : String) (v : FireValue α) (h : k' ≠ k) :
    (l.map (fun p => if p.1 == k then (k, v) else p)).lookup k' =
      l.lookup k' := by
  induction l with
  | nil => rfl
  | cons p t ih =>
    rcases p with ⟨k₀, w⟩
    rw [List.map_cons]
    by_cases h0 : k₀ = k
    · subst h0
      have hb' : (k' == k₀) = false := beq_eq_false_iff_ne.mpr h
      rw [if_pos (by simp)]
      rw [List.lookup_cons, List.lookup_cons]
      simp only [hb']
      exact ih
    · have hb : ((k₀, w).1 == k) = false := beq_eq_false_iff_ne.mpr h0
      rw [if_neg (by simp [hb])]
      rw [List.lookup_cons, List.lookup_cons]
      cases hkk : (k' == k₀) with
      | true => simp only [hkk]
      | false => simp only [hkk]; exact ih

/-- `setField` makes the key it sets look up to the new value. -/
theorem lookup_setField_self (l : List (String × FireValue α))
    (k : String) (v : FireValue α) : (setField l k v).lookup k = some v := by
  unfold setField
  split
  · rename_i hany
    rw [lookup_map_overwrite, if_pos hany]
  · rename_i hany
    rw [List.lookup_append]
    have hnone : l.lookup k = none := by
      rw [List.lookup_eq_none_iff]
      intro p hp
      by_contra hk
      simp only [bne_iff_ne, ne_eq, Decidable.not_not] at hk
      exact hany (List.any_eq_true.mpr ⟨p, hp, by simp [hk]⟩)
    simp [hnone, List.lookup_cons]

/-- `setField` leaves every other key's lookup unchanged. -/
theorem lookup_setField_ne (l : List (String × FireValue α))
    (k k' : String) (v : FireValue α) (h : k' ≠ k) :
    (setField l k v).lookup k' = l.lookup k' := by
  unfold setField
  split
  · exact lookup_map_overwrite_ne l k k' v h
  · rw [List.lookup_append]
    cases hl : l.lookup k' with
    | some w => simp
    | none => simp [List.lookup_cons, beq_eq_false_iff_ne.mpr h]

section HandlerLemmas

variable {α : Type} [LinearOrderedField α]

/-- Membership in the `find_by_location` proximity filter: a document/
distance pair is produced exactly for input documents whose location is
present and within the radius, annotated with the computed distance. -/
theorem mem_nearby_users (dist : α → α → α → α → α) (la ln r : α)
    (users : List (UserDoc α)) (d : UserDoc α) (δ : α) :
    (d, δ) ∈ nearby_users dist la ln r users ↔
      d ∈ users ∧ ∃ loc : α × α, d.location = some loc ∧
        dist la ln loc.1 loc.2 ≤ r ∧ δ = dist la ln loc.1 loc.2 := by
  unfold nearby_users
  rw [List.mem_filterMap]
  constructor
  · rintro ⟨a, ha, hf⟩
    rw [List.mem_filter] at ha
    cases hl : a.location with
    | none =>
      simp only [hl] at hf
      exact Option.noConfusion hf
    | some loc =>
      simp only [hl] at hf
      by_cases hle : dist la ln loc.1 loc.2 ≤ r
      · rw [if_pos hle] at hf
        simp only [Option.some.injEq, Prod.mk.injEq] at hf
        obtain ⟨rfl, rfl⟩ := hf
        exact ⟨ha.1, loc, hl, hle, rfl⟩
      · rw [if_neg hle] at hf
        exact Option.noConfusion hf
  · rintro ⟨hd, loc, hl, hle, rfl⟩
    refine ⟨d, ?_, ?_⟩
    · rw [List.mem_filter]
      exact ⟨hd, by simp [hl]⟩
    · simp only [hl]
      rw [if_pos hle]

omit [LinearOrderedField α] in
/-- The `type`-filtered collection of `find_users`: membership. -/
theorem mem_find_users_queried (ut : Option String)
    (users : List (UserDoc α)) (d : UserDoc α) :
    (d ∈ (if strTruthy ut then
        users.filter (fun u => u.type == ut.getD "") else users)) ↔
      d ∈ users ∧ (strTruthy ut = true → d.type = ut.getD "") := by
  cases hut : strTruthy ut with
  | false => simp
  | true => simp [List.mem_filter]

/-- The distance step with `lat`, `lng` and `radius` all supplied,
written without the outer match. -/
theorem distanceStep_some_eq (dist : α → α → α → α → α) (la ln r : α)
    (u : UserDoc α) :
    distanceStep dist (some la) (some ln) (some r) u =
      match u.location with
      | none => none
      | some loc =>
        if dist la ln loc.1 loc.2 > r then none
        else some (u, some (dist la ln loc.1 loc.2)) := rfl

/-- When `lat`, `lng` or `radius` is missing, the distance step passes
every document through with no distance annotation. -/
theorem distanceStep_off (dist : α → α → α → α → α)
    (lat lng radius : Option α) (u : UserDoc α)
    (h : lat = none ∨ lng = none ∨ radius = none) :
    distanceStep dist lat lng radius u = some (u, none) := by
  unfold distanceStep
  rcases h with h | h | h <;> subst h
  · cases lng <;> cases radius <;> rfl
  · cases lat <;> cases radius <;> rfl
  · cases lat <;> cases lng <;> rfl

/-- Membership in `find_users_filtered` when `lat`, `lng` and `radius`
are all supplied: every filter must pass, and the surviving document is
annotated with `some` computed distance. -/
theorem mem_find_users_filtered_some (dist : α → α → α → α → α)
    (ut dk fk : Option String) (la ln r : α) (users : List (UserDoc α))
    (d : UserDoc α) (δ : Option α) :
    (d, δ) ∈ find_users_filtered dist ut dk fk
        (some la) (some ln) (some r) users ↔
      d ∈ users ∧ (strTruthy ut = true → d.type = ut.getD "") ∧
      (strTruthy dk && !(strIn (pyLower (dk.getD ""))
        (pyLower (d.description.getD "")))) = false ∧
      (strTruthy fk && !(strIn (pyLower (fk.getD ""))
        (pyLower (d.focus_area.getD "")))) = false ∧
      ∃ loc : α × α, d.location = some loc ∧
        dist la ln loc.1 loc.2 ≤ r ∧ δ = some (dist la ln loc.1 loc.2) := by
  unfold find_users_filtered
  rw [List.mem_filterMap]
  constructor
  · rintro ⟨a, ha, hf⟩
    rw [mem_find_users_queried] at ha
    by_cases h1 : (strTruthy dk && !(strIn (pyLower (dk.getD ""))
        (pyLower (a.description.getD "")))) = true
    · rw [if_pos h1] at hf; exact Option.noConfusion hf
    · rw [if_neg h1] at hf
      by_cases h2 : (strTruthy fk && !(strIn (pyLower (fk.getD ""))
          (pyLower (a.focus_area.getD "")))) = true
      · rw [if_pos h2] at hf; exact Option.noConfusion hf
      · rw [if_neg h2] at hf
        rw [distanceStep_some_eq] at hf
        cases hl : a.location with
        | none =>
          simp only [hl] at hf
          exact Option.noConfusion hf
        | some loc =>
          simp only [hl] at hf
          by_cases hgt : dist la ln loc.1 loc.2 > r
          · rw [if_pos hgt] at hf; exact Option.noConfusion hf
          · rw [if_neg hgt] at hf
            simp only [Option.some.injEq, Prod.mk.injEq] at hf
            obtain ⟨rfl, rfl⟩ := hf
            exact ⟨ha.1, ha.2, Bool.eq_false_iff.mpr h1,
              Bool.eq_false_iff.mpr h2, loc, hl, not_lt.mp hgt, rfl⟩
  · rintro ⟨hd, ht, h1, h2, loc, hl, hle, rfl⟩
    refine ⟨d, mem_find_users_queried ut users d |>.mpr ⟨hd, ht⟩, ?_⟩
    rw [if_neg (by rw [h1]; exact Bool.false_ne_true)]
    rw [if_neg (by rw [h2]; exact Bool.false_ne_true)]
    rw [distanceStep_some_eq]
    simp only [hl]
    rw [if_neg (not_lt.mpr hle)]

omit [LinearOrderedField α] in
/-- Filtering through two keyword checks followed by a pass-through step
is filtering by the conjunction of the checks, each survivor paired with
`none`. -/
theorem filterMap_keywords_pass (c1 c2 : UserDoc α → Bool)
    (step : UserDoc α → Option (UserDoc α × Option α))
    (hstep : ∀ u, step u = some (u, none)) (l : List (UserDoc α)) :
    (l.filterMap (fun u =>
        if c1 u then none else if c2 u then none else step u)) =
      (l.filter (fun u => !c1 u && !c2 u)).map (fun u => (u, none)) := by
  induction l with
  | nil => rfl
  | cons a t ih =>
    cases hb1 : c1 a <;> cases hb2 : c2 a <;>
      simp [List.filterMap_cons, List.filter_cons, hb1, hb2, hstep a, ih]

/-- When `lat`, `lng` or `radius` is missing, `find_users_filtered`
reduces to the keyword filters followed by a `none` distance annotation
on every surviving document. -/
theorem find_users_filtered_off (dist : α → α → α → α → α)
    (ut dk fk : Option String) (lat lng radius : Option α)
    (users : List (UserDoc α))
    (h : lat = none ∨ lng = none ∨ radius = none) :
    find_users_filtered dist ut dk fk lat lng radius users =
      ((if strTruthy ut then
          users.filter (fun u => u.type == ut.getD "") else users).filter
        (fun u =>
          !(strTruthy dk && !(strIn (pyLower (dk.getD ""))
            (pyLower (u.description.getD "")))) &&
          !(strTruthy fk && !(strIn (pyLower (fk.getD ""))
            (pyLower (u.focus_area.getD "")))))).map (fun u => (u, none)) := by
  unfold find_users_filtered
  exact filterMap_keywords_pass
    (fun u => strTruthy dk && !(strIn (pyLower (dk.getD ""))
      (pyLower (u.description.getD ""))))
    (fun u => strTruthy fk && !(strIn (pyLower (fk.getD ""))
      (pyLower (u.focus_area.getD ""))))
    (distanceStep dist lat lng radius)
    (fun u => distanceStep_off dist lat lng radius u h) _

/-- The boolean keyword check fails to reject exactly when, whenever the
keyword is truthy, its lowercase form is a substring of the lowercase
field. -/
theorem keyword_cond_false_iff (kw : Option String) (field : String) :
    ((strTruthy kw && !(strIn (pyLower (kw.getD "")) (pyLower field))) = false) ↔
      (strTruthy kw = true →
        (pyLower (kw.getD "")).data <:+: (pyLower field).data) := by
  cases hkw : strTruthy kw with
  | false => simp
  | true =>
    cases hin : strIn (pyLower (kw.getD "")) (pyLower field) with
    | false =>
      simp only [Bool.true_and, Bool.not_false, hin]
      unfold strIn at hin
      simp only [decide_eq_false_iff_not] at hin
      simp [hin]
    | true =>
      simp only [Bool.true_and, hin, Bool.not_true]
      unfold strIn at hin
      simp only [decide_eq_true_eq] at hin
      simp [hin]

/-- Quantifying the substring condition over a supplied keyword is the
same as conditioning on truthiness: an absent keyword is vacuous and an
empty keyword's character list is a substring of everything. -/
theorem keyword_cond_forall_iff (kw? : Option String) (field : String) :
    ((strTruthy kw? = true →
        (pyLower (kw?.getD "")).data <:+: (pyLower field).data)) ↔
      (∀ kw, kw? = some kw → (pyLower kw).data <:+: (pyLower field).data) := by
  cases kw? with
  | none => simp [strTruthy]
  | some s =>
    by_cases hs : s = ""
    · subst hs
      constructor
      · intro _hL kw hkw
        obtain rfl : "" = kw := Option.some.inj hkw
        have hnil : ((pyLower "").data) = [] := by decide
        rw [hnil]
        exact List.nil_infix
      · intro _ htr
        exact absurd htr (by decide)
    · have : s.isEmpty = false := by
        cases he : s.isEmpty with
        | false => rfl
        | true => exact absurd ((String.isEmpty_iff s).mp he) hs
      simp [strTruthy, this]

/-- The type filter's conditional form is exact-match against any
supplied (non-empty) value. -/
theorem type_cond_iff (ut : Option String) (ty : String)
    (hT : ut ≠ some "") :
    ((strTruthy ut = true → ty = ut.getD "")) ↔
      (∀ t, ut = some t → ty = t) := by
  cases ut with
  | none => simp [strTruthy]
  | some s =>
    have hs : s ≠ "" := fun h => hT (by rw [h])
    have : s.isEmpty = false := by
      cases he : s.isEmpty with
      | false => rfl
      | true => exact absurd ((String.isEmpty_iff s).mp he) hs
    simp [strTruthy, this]

end HandlerLemmas

/-! ## Haversine lemmas -/

/-- The Haversine distance with the lets spelled out. -/
theorem haversine_eq (lat1 lon1 lat2 lon2 : ℝ) :
    haversine lat1 lon1 lat2 lon2 =
      6371 * (2 * atan2
        (Real.sqrt (Real.sin (radians (lat2 - lat1) / 2) ^ 2 +
          Real.cos (radians lat1) * Real.cos (radians lat2) *
            Real.sin (radians (lon2 - lon1) / 2) ^ 2))
        (Real.sqrt (1 - (Real.sin (radians (lat2 - lat1) / 2) ^ 2 +
          Real.cos (radians lat1) * Real.cos (radians lat2) *
            Real.sin (radians (lon2 - lon1) / 2) ^ 2)))) := rfl

/-- With both arguments nonnegative, `atan2` lands in the first quadrant. -/
theorem atan2_nonneg (y x : ℝ) (hy : 0 ≤ y) (hx : 0 ≤ x) :
    0 ≤ atan2 y x := by
  unfold atan2
  by_cases h1 : 0 < x
  · rw [if_pos h1]
    have h0 : (0 : ℝ) ≤ y / x := div_nonneg hy (le_of_lt h1)
    have := Real.arctan_strictMono.monotone h0
    rwa [Real.arctan_zero] at this
  · rw [if_neg h1]
    rw [if_neg (not_lt.mpr hx)]
    by_cases hy0 : 0 < y
    · rw [if_pos hy0]
      exact le_of_lt (div_pos Real.pi_pos two_pos)
    · rw [if_neg hy0]
      rw [if_neg (not_lt.mpr hy)]

/-- The value of `atan2` at `(0, 1)` is zero. -/
theorem atan2_zero_one : atan2 0 1 = 0 := by
  unfold atan2
  rw [if_pos one_pos]
  simp [Real.arctan_zero]

/-- The squared-sine term of the Haversine formula is symmetric in its
two endpoints. -/
theorem sin_sq_radians_sub_symm (u v : ℝ) :
    Real.sin (radians (u - v) / 2) ^ 2 =
      Real.sin (radians (v - u) / 2) ^ 2 := by
  have h : radians (u - v) = -(radians (v - u)) := by
    unfold radians; ring
  rw [h, neg_div, Real.sin_neg, neg_sq]

/-! ## The claims -/

/-- Claim C7: for every password and every 16-byte salt,
`verify_password password (hash_password password)` returns `true`:
`hash_password` returns `salt ++ kdf password salt 100000` and
`verify_password` splits the stored bytes at offset 16, recomputes the
derived key with the same parameters and compares for equality.  The
key-derivation function `kdf` (PBKDF2-HMAC-SHA256 in the source) enters
as an uninterpreted deterministic function. -/
theorem verify_of_hash_password (kdf : List Nat → List Nat → Nat → List Nat)
    (password salt : List Nat) (h : salt.length = 16) :
    verify_password kdf password (hash_password kdf password salt) = true := by
  unfold verify_password hash_password
  rw [List.take_left' h, List.drop_left' h]
  exact beq_self_eq_true _

/-- Witness for C7 at a concrete key-derivation function, password and
16-byte salt. -/
theorem verify_of_hash_password_witness :
    (List.replicate 16 0).length = 16 ∧
    verify_password (fun p s _ => p ++ s) [7]
      (hash_password (fun p s _ => p ++ s) [7] (List.replicate 16 0)) = true :=
  ⟨by decide, verify_of_hash_password (fun p s _ => p ++ s) [7]
    (List.replicate 16 0) (by decide)⟩

/-- Claim C9: `serialize_firestore_document` returns a mapping whose
`id` field is the source document's identifier, in which every geo-point
field is replaced by a `{latitude, longitude}` pair, every non-geo field
is carried over unchanged, and no other key appears; it is total (no
error case). -/
theorem serialize_firestore_document_spec (doc : FireDoc α) :
    (serialize_firestore_document doc).lookup "id" =
      some (.str doc.id) ∧
    (∀ k : String, k ≠ "id" →
      (serialize_firestore_document doc).lookup k =
        (doc.fields.lookup k).map flattenValue) ∧
    (∀ la ln : α, flattenValue (.geo la ln) = .latlng la ln) ∧
    (∀ v : FireValue α, (∀ la ln, v ≠ .geo la ln) → flattenValue v = v) := by
  refine ⟨?_, ?_, fun _ _ => rfl, ?_⟩
  · unfold serialize_firestore_document
    rw [lookup_map_value, lookup_setField_self]
    rfl
  · intro k hk
    unfold serialize_firestore_document
    rw [lookup_map_value, lookup_setField_ne _ _ _ _ hk]
  · intro v hv
    cases v with
    | geo la ln => exact absurd rfl (hv la ln)
    | str s => rfl
    | num x => rfl
    | boolean b => rfl
    | latlng la ln => rfl

/-- Witness for C9's inner implications at a concrete document: the `id`
binding, an untouched scalar field and a flattened geo field. -/
theorem serialize_firestore_document_spec_witness :
    (serialize_firestore_document
        (⟨"d7", [("name", .str "x"), ("loc", .geo (3 : ℚ) 4)]⟩ : FireDoc ℚ)).lookup "id" =
      some (.str "d7") ∧
    (serialize_firestore_document
        (⟨"d7", [("name", .str "x"), ("loc", .geo (3 : ℚ) 4)]⟩ : FireDoc ℚ)).lookup "loc" =
      some (.latlng 3 4) :=
  ⟨(serialize_firestore_document_spec
      (⟨"d7", [("name", .str "x"), ("loc", .geo (3 : ℚ) 4)]⟩ : FireDoc ℚ)).1,
   by decide⟩

/-- Claim C5 (the code violates it): with the products collection empty,
`GET /products/p1` does not produce the 404 the handler tries to raise.
The blanket `except Exception` catches the `HTTPException(404, "Product
not found")` and re-raises it as a 500 whose detail is the rendered text
of the caught exception. -/
theorem get_product_by_id_missing_gives_500 (strOfExc : HTTPError → String) :
    get_product_by_id strOfExc ([] : List (FireDoc ℚ)) "p1" =
      .error ⟨500, strOfExc ⟨404, "Product not found"⟩⟩ := rfl

/-- Claim C6 (the code violates it): the `find_users` handler builds its
`JSONResponse` but never returns it, so for every request its value is
Python's `None` — never a 200 with the filtered array. -/
theorem find_users_never_returns {α : Type} [LinearOrderedField α]
    (dist : α → α → α → α → α)
    (user_type description_keyword focus_area_keyword : Option String)
    (lat lng radius : Option α) (users : List (UserDoc α)) :
    find_users dist user_type description_keyword focus_area_keyword
      lat lng radius users = none := rfl

/-- Claim C4: a request to `GET /find_by_location` missing latitude or
longitude results in `HTTPException 400` — no filtering is performed and
no default center is used, even when a radius is supplied. -/
theorem find_by_location_missing_latlng_400 {α : Type} [LinearOrderedField α]
    (dist : α → α → α → α → α) (lat lng radius : Option α)
    (users : List (UserDoc α)) (h : lat = none ∨ lng = none) :
    find_users_by_location dist lat lng radius users =
      .error ⟨400, "No products found at the given location"⟩ := by
  unfold find_users_by_location
  rcases h with h | h <;> subst h
  · cases lng <;> rfl
  · cases lat <;> rfl

/-- Witness for C4: latitude missing while a radius and a located user
document are supplied. -/
theorem find_by_location_missing_latlng_400_witness :
    ((none : Option ℚ) = none ∨ (some (1 : ℚ)) = none) ∧
    find_users_by_location (fun _ _ _ _ => (0 : ℚ)) none (some 1) (some 5)
      [⟨"farmer", none, none, some (0, 0)⟩] =
      .error ⟨400, "No products found at the given location"⟩ :=
  ⟨Or.inl rfl,
   find_by_location_missing_latlng_400 (fun _ _ _ _ => (0 : ℚ)) none (some 1)
     (some 5) [⟨"farmer", none, none, some (0, 0)⟩] (Or.inl rfl)⟩

/-- Claim C10: in `GET /users/find` the location/radius filter runs only
when `lat`, `lng` and `radius` are all supplied; when any one is missing
the distance constraint is skipped entirely — a document is kept exactly
when it passes the keyword filters, documents without a location are
still included, and no kept document carries a `distance` field. -/
theorem find_users_distance_skipped {α : Type} [LinearOrderedField α]
    (dist : α → α → α → α → α) (ut dk fk : Option String)
    (lat lng radius : Option α) (users : List (UserDoc α)) (d : UserDoc α)
    (h : lat = none ∨ lng = none ∨ radius = none) :
    (∀ δ : Option α,
      (d, δ) ∈ find_users_filtered dist ut dk fk lat lng radius users →
        δ = none) ∧
    ((d, (none : Option α)) ∈
        find_users_filtered dist ut dk fk lat lng radius users ↔
      d ∈ users ∧ (strTruthy ut = true → d.type = ut.getD "") ∧
      (∀ kw, dk = some kw →
        (pyLower kw).data <:+: (pyLower (d.description.getD "")).data) ∧
      (∀ kw, fk = some kw →
        (pyLower kw).data <:+: (pyLower (d.focus_area.getD "")).data)) := by
  have heq := find_users_filtered_off dist ut dk fk lat lng radius users h
  constructor
  · intro δ hm
    rw [heq, List.mem_map] at hm
    obtain ⟨u, _, he⟩ := hm
    have := congrArg Prod.snd he
    simpa using this.symm
  · rw [heq, List.mem_map]
    constructor
    · rintro ⟨u, hu, he⟩
      obtain rfl : u = d := congrArg Prod.fst he
      rw [List.mem_filter] at hu
      obtain ⟨hq, hcond⟩ := hu
      rw [mem_find_users_queried] at hq
      rw [Bool.and_eq_true, Bool.not_eq_true', Bool.not_eq_true'] at hcond
      exact ⟨hq.1, hq.2,
        (keyword_cond_forall_iff dk _).mp
          ((keyword_cond_false_iff dk _).mp hcond.1),
        (keyword_cond_forall_iff fk _).mp
          ((keyword_cond_false_iff fk _).mp hcond.2)⟩
    · rintro ⟨hd, ht, hdk, hfk⟩
      refine ⟨d, ?_, rfl⟩
      rw [List.mem_filter]
      refine ⟨(mem_find_users_queried ut users d).mpr ⟨hd, ht⟩, ?_⟩
      rw [Bool.and_eq_true, Bool.not_eq_true', Bool.not_eq_true']
      exact ⟨(keyword_cond_false_iff dk _).mpr
          ((keyword_cond_forall_iff dk _).mpr hdk),
        (keyword_cond_false_iff fk _).mpr
          ((keyword_cond_forall_iff fk _).mpr hfk)⟩

/-- Witness for C10: radius missing, a user without a location passes the
(absent) keyword filters and is kept with no distance annotation. -/
theorem find_users_distance_skipped_witness :
    ((some (3 : ℚ)) = none ∨ (some (4 : ℚ)) = none ∨ (none : Option ℚ) = none) ∧
    ((∀ δ : Option ℚ,
      (⟨"buyer", none, none, none⟩, δ) ∈ find_users_filtered
        (fun _ _ _ _ => (0 : ℚ)) none none none (some 3) (some 4) none
        [⟨"buyer", none, none, none⟩] → δ = none) ∧
    ((⟨"buyer", none, none, none⟩, (none : Option ℚ)) ∈
        find_users_filtered (fun _ _ _ _ => (0 : ℚ)) none none none
          (some 3) (some 4) none [⟨"buyer", none, none, none⟩] ↔
      (⟨"buyer", none, none, none⟩ : UserDoc ℚ) ∈
          [(⟨"buyer", none, none, none⟩ : UserDoc ℚ)] ∧
      (strTruthy none = true →
        UserDoc.type (⟨"buyer", none, none, none⟩ : UserDoc ℚ) = Option.getD none "") ∧
      (∀ kw, (none : Option String) = some kw →
        (pyLower kw).data <:+:
          (pyLower (Option.getD (none : Option String) "")).data) ∧
      (∀ kw, (none : Option String) = some kw →
        (pyLower kw).data <:+:
          (pyLower (Option.getD (none : Option String) "")).data))) :=
  ⟨Or.inr (Or.inr rfl),
   find_users_distance_skipped (fun _ _ _ _ => (0 : ℚ)) none none none
     (some 3) (some 4) none [⟨"buyer", none, none, none⟩]
     ⟨"buyer", none, none, none⟩ (Or.inr (Or.inr rfl))⟩

/-- Claim C2, with type-parameter truthiness refuted below: as stated the
claim fails when `type` is supplied as the empty string (Python's
`if user_type:` is falsy there, so the exact-match filter is skipped and
a document of any type is kept).  Amended claim: in `GET /users/find`
(with `lat`, `lng` and `radius` supplied so the distance filter also
runs), provided the supplied `type` is not the empty string, a document
is kept exactly when it passes all supplied filters AND-combined — exact
equality on a supplied `type`, case-insensitive substring containment of
the supplied `description` and `focus_area` keywords, and the Haversine
distance filter. -/
theorem find_users_filters_and_combined (ut dk fk : Option String)
    (la ln r : ℝ) (users : List (UserDoc ℝ)) (d : UserDoc ℝ)
    (hT : ut ≠ some "") :
    (∃ δ : Option ℝ, (d, δ) ∈ find_users_filtered haversine ut dk fk
        (some la) (some ln) (some r) users) ↔
      d ∈ users ∧
      (∀ t, ut = some t → d.type = t) ∧
      (∀ kw, dk = some kw →
        (pyLower kw).data <:+: (pyLower (d.description.getD "")).data) ∧
      (∀ kw, fk = some kw →
        (pyLower kw).data <:+: (pyLower (d.focus_area.getD "")).data) ∧
      (∃ plat plng : ℝ, d.location = some (plat, plng) ∧
        haversine la ln plat plng ≤ r) := by
  constructor
  · rintro ⟨δ, hm⟩
    rw [mem_find_users_filtered_some] at hm
    obtain ⟨hd, ht, h1, h2, loc, hl, hle, -⟩ := hm
    exact ⟨hd, (type_cond_iff ut d.type hT).mp ht,
      (keyword_cond_forall_iff dk _).mp ((keyword_cond_false_iff dk _).mp h1),
      (keyword_cond_forall_iff fk _).mp ((keyword_cond_false_iff fk _).mp h2),
      loc.1, loc.2, by rwa [Prod.mk.eta], hle⟩
  · rintro ⟨hd, ht, hdk, hfk, plat, plng, hl, hle⟩
    refine ⟨some (haversine la ln plat plng), ?_⟩
    rw [mem_find_users_filtered_some]
    exact ⟨hd, (type_cond_iff ut d.type hT).mpr ht,
      (keyword_cond_false_iff dk _).mpr ((keyword_cond_forall_iff dk _).mpr hdk),
      (keyword_cond_false_iff fk _).mpr ((keyword_cond_forall_iff fk _).mpr hfk),
      (plat, plng), hl, hle, rfl⟩

/-- Witness for C2 at concrete parameters: the supplied type filter is
the non-empty string "farmer". -/
theorem find_users_filters_and_combined_witness :
    (some "farmer" ≠ some "") ∧
    ((∃ δ : Option ℝ,
      (⟨"farmer", some "rice", none, some (0, 0)⟩, δ) ∈ find_users_filtered
        haversine (some "farmer") (some "RICE") none
        (some 0) (some 0) (some 100) [⟨"farmer", some "rice", none, some (0, 0)⟩]) ↔
      (⟨"farmer", some "rice", none, some (0, 0)⟩ : UserDoc ℝ) ∈
          [(⟨"farmer", some "rice", none, some (0, 0)⟩ : UserDoc ℝ)] ∧
      (∀ t, some "farmer" = some t →
        UserDoc.type (⟨"farmer", some "rice", none, some (0, 0)⟩ : UserDoc ℝ) = t) ∧
      (∀ kw, some "RICE" = some kw →
        (pyLower kw).data <:+: (pyLower (Option.getD (some "rice") "")).data) ∧
      (∀ kw, (none : Option String) = some kw →
        (pyLower kw).data <:+: (pyLower (Option.getD (none : Option String) "")).data) ∧
      (∃ plat plng : ℝ,
        UserDoc.location (⟨"farmer", some "rice", none, some (0, 0)⟩ : UserDoc ℝ) =
          some (plat, plng) ∧ haversine 0 0 plat plng ≤ 100)) :=
  ⟨by decide,
   find_users_filters_and_combined (some "farmer") (some "RICE") none
     0 0 100 [⟨"farmer", some "rice", none, some (0, 0)⟩]
     ⟨"farmer", some "rice", none, some (0, 0)⟩ (by decide)⟩

/-- Counterexample to claim C2 as frozen: with `type` supplied as the
empty string, a document whose `type` is `"farmer"` — not equal to the
supplied value — passes every other filter and is kept, because Python's
truthiness check `if user_type:` skips the exact-match filter for an
empty parameter.  The claim requires such a document to be dropped. -/
theorem find_users_type_truthiness_counterexample :
    (⟨"farmer", none, none, some (0, 0)⟩, some (0 : ℚ)) ∈
      find_users_filtered (fun _ _ _ _ => (0 : ℚ)) (some "") none none
        (some 0) (some 0) (some 5) [⟨"farmer", none, none, some (0, 0)⟩] ∧
    UserDoc.type (⟨"farmer", none, none, some (0, 0)⟩ : UserDoc ℚ) ≠ "" := by
  decide

/-- Claim C1: `GET /find_by_location` succeeds on a supplied center and
its proximity filter includes a document exactly when the document has a
location whose Haversine distance from the center is at most the
(possibly defaulted) radius; every included document is annotated with
that computed distance. -/
theorem find_by_location_proximity (lat lng : ℝ) (radius : Option ℝ)
    (users : List (UserDoc ℝ)) (d : UserDoc ℝ) (δ : ℝ) :
    ∃ out, find_users_by_location haversine (some lat) (some lng) radius
        users = .ok out ∧
      ((d, δ) ∈ out ↔ d ∈ users ∧
        ∃ plat plng : ℝ, d.location = some (plat, plng) ∧
          haversine lat lng plat plng ≤ radius.getD 10 ∧
          δ = haversine lat lng plat plng) := by
  refine ⟨_, rfl, ?_⟩
  rw [List.mem_mergeSort, mem_nearby_users]
  constructor
  · rintro ⟨hd, loc, hl, hle, rfl⟩
    exact ⟨hd, loc.1, loc.2, by rwa [Prod.mk.eta], hle, rfl⟩
  · rintro ⟨hd, plat, plng, hl, hle, rfl⟩
    exact ⟨hd, (plat, plng), hl, hle, rfl⟩

/-- Claim C3: the list `GET /find_by_location` returns is non-decreasing
in the `distance` field; the sort is stable — it is a permutation of the
filtered list in which every sorted sublist of the filtered list
survives, so documents at equal distance keep their original relative
order. -/
theorem find_by_location_sorted_stable (lat lng : ℝ) (radius : Option ℝ)
    (users : List (UserDoc ℝ)) :
    ∃ out, find_users_by_location haversine (some lat) (some lng) radius
        users = .ok out ∧
      List.Pairwise (fun x y : UserDoc ℝ × ℝ => x.2 ≤ y.2) out ∧
      out.Perm (nearby_users haversine lat lng (radius.getD 10) users) ∧
      (∀ c : List (UserDoc ℝ × ℝ),
        List.Pairwise (fun x y => x.2 ≤ y.2) c →
        c.Sublist (nearby_users haversine lat lng (radius.getD 10) users) →
        c.Sublist out) := by
  have htrans : ∀ a b c : UserDoc ℝ × ℝ,
      byDistance a b → byDistance b c → byDistance a c := by
    intro a b c hab hbc
    simp only [byDistance, decide_eq_true_eq] at *
    exact le_trans hab hbc
  have htotal : ∀ a b : UserDoc ℝ × ℝ,
      byDistance a b || byDistance b a := by
    intro a b
    simp only [byDistance, Bool.or_eq_true, decide_eq_true_eq]
    exact le_total a.2 b.2
  refine ⟨_, rfl, ?_, List.mergeSort_perm _ _, ?_⟩
  · exact (List.sorted_mergeSort htrans htotal _).imp of_decide_eq_true
  · intro c hc hsub
    exact List.sublist_mergeSort htrans htotal
      (hc.imp (fun h => decide_eq_true h)) hsub

/-- Claim C8: the Haversine distance is symmetric in its two points,
zero on identical points, and nonnegative everywhere. -/
theorem haversine_symm_zero_nonneg (lat1 lon1 lat2 lon2 : ℝ) :
    haversine lat1 lon1 lat2 lon2 = haversine lat2 lon2 lat1 lon1 ∧
    haversine lat1 lon1 lat1 lon1 = 0 ∧
    0 ≤ haversine lat1 lon1 lat2 lon2 := by
  refine ⟨?_, ?_, ?_⟩
  · rw [haversine_eq, haversine_eq]
    have hA : Real.sin (radians (lat2 - lat1) / 2) ^ 2 +
        Real.cos (radians lat1) * Real.cos (radians lat2) *
          Real.sin (radians (lon2 - lon1) / 2) ^ 2 =
        Real.sin (radians (lat1 - lat2) / 2) ^ 2 +
        Real.cos (radians lat2) * Real.cos (radians lat1) *
          Real.sin (radians (lon1 - lon2) / 2) ^ 2 := by
      rw [sin_sq_radians_sub_symm lat2 lat1, sin_sq_radians_sub_symm lon2 lon1,
        mul_comm (Real.cos (radians lat1)) (Real.cos (radians lat2))]
    rw [hA]
  · rw [haversine_eq]
    rw [sub_self, sub_self]
    have h0 : radians 0 = 0 := by unfold radians; ring
    rw [h0]
    norm_num [Real.sin_zero, Real.sqrt_zero, Real.sqrt_one, atan2_zero_one]
  · rw [haversine_eq]
    refine mul_nonneg (by norm_num) (mul_nonneg (by norm_num) ?_)
    exact atan2_nonneg _ _ (Real.sqrt_nonneg _) (Real.sqrt_nonneg _)

end Kisaan
